import Mathlib

/-!
Verification of the enzyme-kinetics analysis pipeline (src/Q33.py).

The program loads a spreadsheet into a 2D numeric grid, extracts substrate
concentrations (row 0, columns 1..second-to-last), time points (last column,
rows >= 2) and the reaction-signal block (rows >= 2, columns 1..second-to-last),
estimates one initial velocity per concentration column as the negative of the
ordinary-least-squares slope over the first 5 (time, signal) pairs
(np.polyfit degree 1), fits the Michaelis-Menten law with
scipy.optimize.curve_fit under bounds (0, inf), derives
kcat = Vmax / enzyme_concentration and catalytic efficiency = kcat / Km by
plain floating-point division, and prints each value with Python format .3e.

Numbers are modelled as exact rationals; the two divisions that the source
performs on IEEE floats (which can produce inf or NaN) are modelled with an
explicit extended value type so that division by zero keeps its IEEE meaning
instead of the rational convention x / 0 = 0.
-/

namespace Q33

/-- The measurement grid: the spreadsheet read by pd.read_excel, as a
row-major 2D grid of numbers (df.iloc positions). -/
abbrev Grid := List (List ℚ)

/-- Source line 25: df.iloc[0, 1:-1] — substrate concentrations are row 0 with
the first and last columns dropped. -/
def substrateConcentrations (g : Grid) : List ℚ :=
  ((g.headD []).drop 1).dropLast

/-- Source line 28: df.iloc[2:, -1] — time points are the last column, from
row 2 on. -/
def timePoints (g : Grid) : List ℚ :=
  (g.drop 2).map (fun r => r.getLastD 0)

/-- Source line 31: df.iloc[2:, 1:-1] — the reaction-signal block is rows >= 2
with the first and last columns dropped. -/
def reactionData (g : Grid) : List (List ℚ) :=
  (g.drop 2).map (fun r => (r.drop 1).dropLast)

/-- reaction_data.shape[1]: the number of signal columns (the grid is assumed
rectangular, as numpy requires). -/
def reactionWidth (g : Grid) : ℕ :=
  ((reactionData g).headD []).length

/-- Arithmetic mean of a list of rationals (empty list gives 0). -/
def mean (xs : List ℚ) : ℚ := xs.sum / xs.length

/-- Centered second moment of the regressor: sum of (t - mean t)^2. -/
def Sxx (ts : List ℚ) : ℚ :=
  (ts.map (fun t => (t - mean ts) ^ 2)).sum

/-- Centered cross moment: sum of (t - mean t) * (y - mean y) over the
paired samples. -/
def Sxy (ts ys : List ℚ) : ℚ :=
  ((ts.zip ys).map (fun p => (p.1 - mean ts) * (p.2 - mean ys))).sum

/-- Slope returned by np.polyfit(x, y, 1).  When the design matrix [x, 1] has
full rank (equivalently Sxx x ≠ 0) this is the unique least-squares slope
Sxy / Sxx.  When all x equal some c (rank-deficient case) numpy does not
raise: polyfit divides each Vandermonde column by its norm and calls
np.linalg.lstsq, whose minimum-norm solution, unscaled, has slope
mean y / (2 c) for c ≠ 0.  For c = 0 the column scaling divides 0 by 0 and
numpy propagates NaN; that corner is modelled as 0 and is never relied on. -/
def polyfitSlope (ts ys : List ℚ) : ℚ :=
  if Sxx ts = 0 then
    if ts.headD 0 = 0 then 0 else mean ys / (2 * ts.headD 0)
  else
    Sxy ts ys / Sxx ts

/-- Source line 34: num_points_for_slope = 5. -/
def numPointsForSlope : ℕ := 5

/-- time_points[:num_points_for_slope]. -/
def timeWindow (g : Grid) : List ℚ :=
  (timePoints g).take numPointsForSlope

/-- Column i of the reaction-signal block. -/
def signalColumn (g : Grid) (i : ℕ) : List ℚ :=
  (reactionData g).map (fun r => r.getD i 0)

/-- reaction_data[:num_points_for_slope, i]. -/
def signalWindow (g : Grid) (i : ℕ) : List ℚ :=
  (signalColumn g i).take numPointsForSlope

/-- Source lines 34-41: one initial rate per signal column, the negative of
the np.polyfit slope over the first 5 (time, signal) pairs. -/
def initialRates (g : Grid) : List ℚ :=
  (List.range (reactionWidth g)).map
    (fun i => -(polyfitSlope (timeWindow g) (signalWindow g i)))

/-- Source lines 5-7: the Michaelis-Menten equation. -/
def michaelis_menten (S Vmax Km : ℚ) : ℚ := (Vmax * S) / (Km + S)

/-- Model of scipy.optimize.curve_fit(michaelis_menten, S, v, bounds=(0, np.inf)).
The optimizer itself is an external library; it is modelled as an oracle
producing a (Vmax, Km) pair, together with curve_fit's documented contract for
bounds=(0, np.inf): every returned parameter lies within the bounds, i.e. is
non-negative. -/
structure CurveFit where
  run : List ℚ → List ℚ → ℚ × ℚ
  bounds_nonneg : ∀ S v, 0 ≤ (run S v).1 ∧ 0 ≤ (run S v).2

/-- Extended value: a finite rational, a signed infinity, or NaN.  Models the
IEEE float outcomes of the two divisions in source lines 48-49. -/
inductive FVal where
  | fin (q : ℚ)
  | inf
  | ninf
  | nan
deriving DecidableEq, Repr

/-- IEEE-style division on extended values (numpy float semantics): a finite
nonzero value divided by zero gives a signed infinity, 0 / 0 gives NaN, and
NaN propagates. -/
def FVal.div : FVal → FVal → FVal
  | .fin a, .fin b =>
      if b = 0 then
        if a = 0 then .nan else if 0 < a then .inf else .ninf
      else .fin (a / b)
  | .fin _, .inf => .fin 0
  | .fin _, .ninf => .fin 0
  | .fin _, .nan => .nan
  | .inf, .fin b => if b < 0 then .ninf else .inf
  | .inf, _ => .nan
  | .ninf, .fin b => if b < 0 then .inf else .ninf
  | .ninf, _ => .nan
  | .nan, _ => .nan

/-- Source line 9: the default enzyme concentration, 20e-12 M. -/
def enzymeConcentrationDefault : ℚ := 20 / 10 ^ 12

/-- The result record built in source lines 52-57 (insertion order of the
Python dict: Km, Vmax, kcat, catalytic efficiency). -/
structure AnalysisResult where
  Km : ℚ
  Vmax : ℚ
  kcat : FVal
  catalytic_efficiency : FVal
deriving DecidableEq, Repr

/-- Source lines 9-59: the whole analysis.  The spreadsheet read is replaced
by the already-loaded grid, and curve_fit by its oracle model. -/
def analyze_enzyme_kinetics (cf : CurveFit) (g : Grid)
    (enzyme_concentration : ℚ) : AnalysisResult :=
  let S := substrateConcentrations g
  let v := initialRates g
  let p := cf.run S v
  let Vmax := p.1
  let Km := p.2
  let kcat := FVal.div (.fin Vmax) (.fin enzyme_concentration)
  let eff := FVal.div kcat (.fin Km)
  ⟨Km, Vmax, kcat, eff⟩

/-!
Model of the text rendering of source lines 66-67: each dict entry is printed
as f-string key, then ": ", then the value under Python float format .3e
(scientific notation, one digit before the decimal point and exactly three
after it, exponent shown with a sign and at least two digits).
-/

/-- Round half to even on rationals, the rounding Python applies when a float
is formatted to a fixed number of decimal digits. -/
def rhe (q : ℚ) : ℤ :=
  if q - ⌊q⌋ < 1 / 2 then ⌊q⌋
  else if 1 / 2 < q - ⌊q⌋ then ⌊q⌋ + 1
  else if ⌊q⌋ % 2 = 0 then ⌊q⌋ else ⌊q⌋ + 1

/-- Fuel-bounded search: for q ≥ 1, the number of decimal digits before the
point minus one (the decimal exponent). -/
def expSearchUp (fuel : ℕ) (q : ℚ) : ℕ :=
  if _hf : fuel = 0 then 0
  else if q < 10 then 0 else expSearchUp (fuel - 1) (q / 10) + 1
termination_by fuel
decreasing_by omega

/-- Fuel-bounded search: for 0 < q < 1, the smallest k ≥ 1 with q * 10^k ≥ 1. -/
def expSearchDown (fuel : ℕ) (q : ℚ) : ℕ :=
  if _hf : fuel = 0 then 1
  else if 1 ≤ q * 10 then 1 else expSearchDown (fuel - 1) (q * 10) + 1
termination_by fuel
decreasing_by omega

/-- Decimal exponent of a positive rational: the unique e with
10^e ≤ q < 10^(e+1).  The fuel 2000 covers every magnitude this program can
print. -/
def expOf (q : ℚ) : ℤ :=
  if 1 ≤ q then (expSearchUp 2000 q : ℤ) else -(expSearchDown 2000 q : ℤ)

/-- Scientific decomposition of a positive rational at 3 decimal digits after
the point: the exponent and the 4 mantissa digits as a number in
[1000, 10000). -/
def sciParts (q : ℚ) : ℤ × ℕ :=
  if (rhe (q * (10 : ℚ) ^ ((3 : ℤ) - expOf q))).toNat = 10000
  then (expOf q + 1, 1000)
  else (expOf q, (rhe (q * (10 : ℚ) ^ ((3 : ℤ) - expOf q))).toNat)

/-- The decimal digit n (n < 10) as a character. -/
def digitChar (n : ℕ) : Char := Char.ofNat (48 + n % 10)

/-- Fuel-bounded big-endian decimal digits of a natural number. -/
def natDigitsAux : ℕ → ℕ → List Char
  | 0, _ => []
  | _ + 1, 0 => []
  | fuel + 1, n + 1 => natDigitsAux fuel ((n + 1) / 10) ++ [digitChar ((n + 1) % 10)]

/-- Decimal string of a natural number. -/
def natDigitsStr (n : ℕ) : String :=
  if n = 0 then "0" else String.mk (natDigitsAux (n + 1) n)

/-- Mantissa text d.ddd from the 4 mantissa digits. -/
def mantissaStr (d : ℕ) : String :=
  match natDigitsAux (d + 1) d with
  | c :: rest => String.mk (c :: '.' :: rest)
  | [] => "0.000"

/-- Exponent text: sign then at least two digits, as Python prints it. -/
def expStr (ex : ℤ) : String :=
  let sign := if ex < 0 then "-" else "+"
  let a := ex.natAbs
  let body := if a < 10 then "0" ++ natDigitsStr a else natDigitsStr a
  sign ++ body

/-- Python format .3e for a positive rational. -/
def fmtE3pos (q : ℚ) : String :=
  mantissaStr (sciParts q).2 ++ "e" ++ expStr (sciParts q).1

/-- Python format .3e on a rational of any sign. -/
def fmtE3 (q : ℚ) : String :=
  if q = 0 then "0.000e+00"
  else if q < 0 then "-" ++ fmtE3pos (-q)
  else fmtE3pos q

/-- Python format .3e on an extended value (numpy prints inf and nan). -/
def fvalStr : FVal → String
  | .fin q => fmtE3 q
  | .inf => "inf"
  | .ninf => "-inf"
  | .nan => "nan"

/-- Source lines 52-57 and 66-67: the four printed lines, in the dict's
insertion order. -/
def renderResults (r : AnalysisResult) : List String :=
  [ "Km (µM): " ++ fmtE3 r.Km
  , "Vmax (µM/s): " ++ fmtE3 r.Vmax
  , "kcat (s^-1): " ++ fvalStr r.kcat
  , "Catalytic Efficiency (M^-1s^-1): " ++ fvalStr r.catalytic_efficiency ]

/-- Modelled from the spec: rendering a value in scientific notation with
3 significant digits, i.e. one digit before the decimal point and two after
it.  This is what the spec sentence prescribes; it is compared against the
rendering the code performs. -/
def sciNotation3SigParts (q : ℚ) : ℤ × ℕ :=
  if (rhe (q * (10 : ℚ) ^ ((2 : ℤ) - expOf q))).toNat = 1000
  then (expOf q + 1, 100)
  else (expOf q, (rhe (q * (10 : ℚ) ^ ((2 : ℤ) - expOf q))).toNat)

/-- Modelled from the spec: the 3-significant-digit scientific rendering of a
positive value (mantissa d.dd). -/
def sciNotation3Sig (q : ℚ) : String :=
  match natDigitsAux ((sciNotation3SigParts q).2 + 1) (sciNotation3SigParts q).2 with
  | c :: rest => String.mk (c :: '.' :: rest) ++ "e" ++ expStr (sciNotation3SigParts q).1
  | [] => "0.00" ++ "e" ++ expStr (sciNotation3SigParts q).1

/-!
Evaluation lemmas: conditional rewrite rules that let simp and norm_num
compute the fuel-bounded recursions on concrete inputs without looping.
-/

theorem expSearchUp_lt (fuel : ℕ) (q : ℚ) (h10 : q < 10) :
    expSearchUp fuel q = 0 := by
  rw [expSearchUp.eq_def]
  simp [h10]

theorem expSearchUp_ge (fuel : ℕ) (q : ℚ) (hf : fuel ≠ 0) (h10 : ¬ q < 10) :
    expSearchUp fuel q = expSearchUp (fuel - 1) (q / 10) + 1 := by
  rw [expSearchUp.eq_def]
  simp [hf, h10]

theorem expSearchDown_le (fuel : ℕ) (q : ℚ) (h1 : 1 ≤ q * 10) :
    expSearchDown fuel q = 1 := by
  rw [expSearchDown.eq_def]
  simp [h1]

theorem expSearchDown_gt (fuel : ℕ) (q : ℚ) (hf : fuel ≠ 0) (h1 : ¬ 1 ≤ q * 10) :
    expSearchDown fuel q = expSearchDown (fuel - 1) (q * 10) + 1 := by
  rw [expSearchDown.eq_def]
  simp [hf, h1]

theorem natDigitsAux_zero (fuel : ℕ) : natDigitsAux fuel 0 = [] := by
  cases fuel <;> rfl

theorem natDigitsAux_pos (fuel n : ℕ) (hf : fuel ≠ 0) (hn : n ≠ 0) :
    natDigitsAux fuel n = natDigitsAux (fuel - 1) (n / 10) ++ [digitChar (n % 10)] := by
  cases fuel with
  | zero => exact absurd rfl hf
  | succ f =>
      cases n with
      | zero => exact absurd rfl hn
      | succ m => rfl

theorem range_one_eval : List.range 1 = [0] := rfl

theorem range_two_eval : List.range 2 = [0, 1] := rfl

/-!
Concrete fixtures: oracle instances of the curve_fit model and small
measurement grids used to evaluate the pipeline at explicit inputs.
-/

/-- A curve_fit oracle that returns Vmax = 100, Km = 10 (both inside the
bounds (0, inf)). -/
def cfConst : CurveFit :=
  ⟨fun _ _ => (100, 10), fun _ _ => ⟨by norm_num, by norm_num⟩⟩

/-- A curve_fit oracle that returns Vmax = 0, Km = 0: both parameters sit at
the lower bound 0, which bounds=(0, np.inf) permits. -/
def cfZero : CurveFit :=
  ⟨fun _ _ => (0, 0), fun _ _ => ⟨le_refl 0, le_refl 0⟩⟩

/-- A minimal grid: one row, so there are no time rows and no signal rows;
its only purpose is to drive the post-fit arithmetic. -/
def gMin : Grid := [[0, 1, 0]]

/-- Grid whose slope window has time points [1,1,1,1,1] (a single distinct
value) and the non-constant signal [1,2,3,4,5] in its one signal column. -/
def gDegen : Grid :=
  [[0, 7, 0], [0, 0, 0], [0, 1, 1], [0, 2, 1], [0, 3, 1], [0, 4, 1], [0, 5, 1]]

/-- Grid whose concentration row carries [5, 5]: two points, one distinct
value; two time rows with times [0, 1] and signals decreasing by 1. -/
def gTwoSame : Grid :=
  [[0, 5, 5, 0], [0, 0, 0, 0], [0, 9, 9, 0], [0, 8, 8, 1]]

/-- A 3 by 3 grid with pairwise different entries, used to pin down which
cells the extraction reads. -/
def gLayout : Grid := [[0, 1, 2], [3, 4, 5], [9, 4, 7]]

/-- Grid with only three time samples (fewer than the window size 5): times
[0,1,2], one signal column holding the linear signal 6 - 2t. -/
def gShort : Grid :=
  [[0, 2, 0], [0, 0, 0], [0, 6, 0], [0, 4, 1], [0, 2, 2]]

/-!
Facts about the ordinary-least-squares slope on exactly linear data.
-/

theorem sum_map_linear (m b : ℚ) (ts : List ℚ) :
    (ts.map (fun t => m * t + b)).sum = m * ts.sum + b * ts.length := by
  induction ts with
  | nil => simp
  | cons a t ih =>
      simp only [List.map_cons, List.sum_cons, List.length_cons, ih]
      push_cast
      ring

theorem length_ne_zero_q (ts : List ℚ) (h : ts ≠ []) : (ts.length : ℚ) ≠ 0 := by
  simpa using h

theorem mean_map_linear (m b : ℚ) (ts : List ℚ) (h : ts ≠ []) :
    mean (ts.map (fun t => m * t + b)) = m * mean ts + b := by
  unfold mean
  rw [List.length_map, sum_map_linear]
  have hn := length_ne_zero_q ts h
  field_simp

theorem zip_map_self (f : ℚ → ℚ) (ts : List ℚ) :
    ts.zip (ts.map f) = ts.map (fun t => (t, f t)) := by
  induction ts with
  | nil => rfl
  | cons a t ih => simp [ih]

theorem sum_center_linear (m b c : ℚ) (ts : List ℚ) :
    (ts.map (fun t => (t - c) * ((m * t + b) - (m * c + b)))).sum
      = m * (ts.map (fun t => (t - c) ^ 2)).sum := by
  induction ts with
  | nil => simp
  | cons a t ih =>
      simp only [List.map_cons, List.sum_cons, ih]
      ring

theorem Sxy_linear (m b : ℚ) (ts : List ℚ) (h : ts ≠ []) :
    Sxy ts (ts.map (fun t => m * t + b)) = m * Sxx ts := by
  unfold Sxy Sxx
  rw [zip_map_self, mean_map_linear m b ts h, List.map_map]
  exact sum_center_linear m b (mean ts) ts

theorem Sxx_nil : Sxx ([] : List ℚ) = 0 := by simp [Sxx]

theorem polyfitSlope_linear (m b : ℚ) (ts : List ℚ) (hS : Sxx ts ≠ 0) :
    polyfitSlope ts (ts.map (fun t => m * t + b)) = m := by
  have hne : ts ≠ [] := by
    intro h
    rw [h, Sxx_nil] at hS
    exact hS rfl
  unfold polyfitSlope
  rw [if_neg hS, Sxy_linear m b ts hne, mul_div_assoc, div_self hS, mul_one]

/-!
Positional facts about the fixed-layout extraction.
-/

theorem dropSlice_getD (r : List ℚ) (i : ℕ) (hi : i + 2 < r.length) :
    ((r.drop 1).dropLast).getD i 0 = r.getD (i + 1) 0 := by
  have h1 : ((r.drop 1).dropLast).length = r.length - 2 := by
    simp [List.length_dropLast, List.length_drop]
    omega
  have hi2 : i < ((r.drop 1).dropLast).length := by omega
  have hi3 : i + 1 < r.length := by omega
  rw [List.getD_eq_getElem _ _ hi2, List.getD_eq_getElem _ _ hi3]
  rw [List.getElem_dropLast, List.getElem_drop]
  congr 1
  omega

theorem getLastD_eq_getD (r : List ℚ) (d : ℚ) (h : r ≠ []) :
    r.getLastD d = r.getD (r.length - 1) d := by
  have hlen : r.length - 1 < r.length := by
    cases r with
    | nil => exact absurd rfl h
    | cons a t => simp
  rw [List.getD_eq_getElem _ _ hlen, List.getLastD_eq_getLast?,
    List.getLast?_eq_getLast r h, Option.getD_some, List.getLast_eq_getElem]

/-- Modelled from the spec: the reading of the claim in which the reaction
signal block spans ALL non-last columns of rows >= 2 (the first column
included).  Compared below with the extraction the code performs. -/
def reactionDataSpec (g : Grid) : List (List ℚ) :=
  (g.drop 2).map (fun r => r.dropLast)

/-!
Window-truncation facts used for short grids.
-/

theorem signalColumn_length (g : Grid) (i : ℕ) :
    (signalColumn g i).length = (timePoints g).length := by
  simp [signalColumn, timePoints, reactionData]

theorem timeWindow_of_short (g : Grid) (h5 : (timePoints g).length ≤ 5) :
    timeWindow g = timePoints g :=
  List.take_of_length_le h5

theorem signalWindow_of_short (g : Grid) (i : ℕ)
    (h5 : (timePoints g).length ≤ 5) :
    signalWindow g i = signalColumn g i := by
  apply List.take_of_length_le
  rw [signalColumn_length]
  exact h5

/-!
Bounds on the rounded mantissa: the rendering carries exactly four
significant digits.
-/

theorem rhe_bounds (q : ℚ) : ⌊q⌋ ≤ rhe q ∧ rhe q ≤ ⌊q⌋ + 1 := by
  unfold rhe
  split_ifs <;> omega

theorem sciParts_mantissa (q : ℚ) (h1 : (10 : ℚ) ^ expOf q ≤ q)
    (h2 : q < (10 : ℚ) ^ (expOf q + 1)) :
    1000 ≤ (sciParts q).2 ∧ (sciParts q).2 < 10000 := by
  have hpow : (0 : ℚ) < (10 : ℚ) ^ ((3 : ℤ) - expOf q) := zpow_pos (by norm_num) _
  have hten : (10 : ℚ) ≠ 0 := by norm_num
  have hlo : (1000 : ℚ) ≤ q * (10 : ℚ) ^ ((3 : ℤ) - expOf q) := by
    have h3 : (10 : ℚ) ^ expOf q * (10 : ℚ) ^ ((3 : ℤ) - expOf q) = 1000 := by
      rw [← zpow_add₀ hten]
      norm_num
    calc (1000 : ℚ) = (10 : ℚ) ^ expOf q * (10 : ℚ) ^ ((3 : ℤ) - expOf q) := h3.symm
      _ ≤ q * (10 : ℚ) ^ ((3 : ℤ) - expOf q) := by
          exact mul_le_mul_of_nonneg_right h1 hpow.le
  have hhi : q * (10 : ℚ) ^ ((3 : ℤ) - expOf q) < 10000 := by
    have h4 : (10 : ℚ) ^ (expOf q + 1) * (10 : ℚ) ^ ((3 : ℤ) - expOf q) = 10000 := by
      rw [← zpow_add₀ hten]
      have h5 : expOf q + 1 + (3 - expOf q) = 4 := by ring
      rw [h5]
      norm_num
    calc q * (10 : ℚ) ^ ((3 : ℤ) - expOf q)
        < (10 : ℚ) ^ (expOf q + 1) * (10 : ℚ) ^ ((3 : ℤ) - expOf q) := by
          exact mul_lt_mul_of_pos_right h2 hpow
      _ = 10000 := h4
  have hfl : (1000 : ℤ) ≤ ⌊q * (10 : ℚ) ^ ((3 : ℤ) - expOf q)⌋ := by
    rw [Int.le_floor]
    exact_mod_cast hlo
  have hfu : ⌊q * (10 : ℚ) ^ ((3 : ℤ) - expOf q)⌋ < 10000 := by
    rw [Int.floor_lt]
    exact_mod_cast hhi
  have hr := rhe_bounds (q * (10 : ℚ) ^ ((3 : ℤ) - expOf q))
  unfold sciParts
  split_ifs with hd
  · exact ⟨le_refl 1000, by norm_num⟩
  · constructor <;> simp only [] <;> omega

/-!
Evaluations of the .3e rendering at the values the sample run prints.
-/

theorem sciParts_at_ten : sciParts 10 = (1, 1000) := by
  norm_num [sciParts, expOf, expSearchUp_lt, expSearchUp_ge, rhe, Int.toNat]

theorem sciParts_at_hundred : sciParts 100 = (2, 1000) := by
  norm_num [sciParts, expOf, expSearchUp_lt, expSearchUp_ge, rhe, Int.toNat]

theorem sciParts_at_fiveE12 : sciParts (5 * 10 ^ 12) = (12, 5000) := by
  norm_num [sciParts, expOf, expSearchUp_lt, expSearchUp_ge, rhe, Int.toNat]

theorem sciParts_at_fiveE11 : sciParts (5 * 10 ^ 11) = (11, 5000) := by
  norm_num [sciParts, expOf, expSearchUp_lt, expSearchUp_ge, rhe, Int.toNat]

theorem fmtE3_ten : fmtE3 10 = "1.000e+01" := by
  have h0 : ¬ (10 : ℚ) = 0 := by norm_num
  have h1 : ¬ (10 : ℚ) < 0 := by norm_num
  unfold fmtE3 fmtE3pos
  rw [if_neg h0, if_neg h1, sciParts_at_ten]
  decide

theorem fmtE3_hundred : fmtE3 100 = "1.000e+02" := by
  have h0 : ¬ (100 : ℚ) = 0 := by norm_num
  have h1 : ¬ (100 : ℚ) < 0 := by norm_num
  unfold fmtE3 fmtE3pos
  rw [if_neg h0, if_neg h1, sciParts_at_hundred]
  decide

theorem fmtE3_fiveE12 : fmtE3 (5 * 10 ^ 12) = "5.000e+12" := by
  have h0 : ¬ (5 * 10 ^ 12 : ℚ) = 0 := by norm_num
  have h1 : ¬ (5 * 10 ^ 12 : ℚ) < 0 := by norm_num
  unfold fmtE3 fmtE3pos
  rw [if_neg h0, if_neg h1, sciParts_at_fiveE12]
  decide

theorem fmtE3_fiveE11 : fmtE3 (5 * 10 ^ 11) = "5.000e+11" := by
  have h0 : ¬ (5 * 10 ^ 11 : ℚ) = 0 := by norm_num
  have h1 : ¬ (5 * 10 ^ 11 : ℚ) < 0 := by norm_num
  unfold fmtE3 fmtE3pos
  rw [if_neg h0, if_neg h1, sciParts_at_fiveE11]
  decide

theorem sciNotation3SigParts_at_ten : sciNotation3SigParts 10 = (1, 100) := by
  norm_num [sciNotation3SigParts, expOf, expSearchUp_lt, expSearchUp_ge, rhe, Int.toNat]

theorem sciNotation3Sig_ten : sciNotation3Sig 10 = "1.00e+01" := by
  unfold sciNotation3Sig
  rw [sciNotation3SigParts_at_ten]
  decide

/-!
Claim theorems.
-/

/-- C1: for every concentration column whose signal is exactly linear in time
with slope m over the 5-point window, the Rate Estimator reports velocity -m
for that column, and it emits one velocity per signal column, positionally
aligned (the output list has exactly reactionWidth entries and entry i belongs
to column i). -/
theorem C1_initial_velocity_linear (g : Grid) (i : ℕ) (m b : ℚ)
    (hi : i < reactionWidth g)
    (hlin : signalWindow g i = (timeWindow g).map (fun t => m * t + b))
    (hS : Sxx (timeWindow g) ≠ 0) :
    (initialRates g).length = reactionWidth g ∧ (initialRates g).getD i 0 = -m := by
  constructor
  · simp [initialRates]
  · have hi' : i < ((List.range (reactionWidth g)).map
        (fun i => -(polyfitSlope (timeWindow g) (signalWindow g i)))).length := by
      simpa using hi
    show ((List.range (reactionWidth g)).map
        (fun i => -(polyfitSlope (timeWindow g) (signalWindow g i)))).getD i 0 = -m
    rw [List.getD_eq_getElem _ _ hi', List.getElem_map, List.getElem_range]
    rw [hlin, polyfitSlope_linear m b _ hS]

/-- C1 witness: on the grid gShort the single signal column is 6 - 2t over
times [0,1,2]; the reported velocity is 2 and the output has one entry. -/
theorem C1_witness :
    0 < reactionWidth gShort ∧
    signalWindow gShort 0 = (timeWindow gShort).map (fun t => (-2 : ℚ) * t + 6) ∧
    Sxx (timeWindow gShort) ≠ 0 ∧
    ((initialRates gShort).length = reactionWidth gShort ∧
      (initialRates gShort).getD 0 0 = -(-2 : ℚ)) := by
  have h1 : 0 < reactionWidth gShort := by
    norm_num [reactionWidth, reactionData, gShort]
  have h2 : signalWindow gShort 0
      = (timeWindow gShort).map (fun t => (-2 : ℚ) * t + 6) := by
    norm_num [signalWindow, signalColumn, reactionData, gShort, timeWindow,
      timePoints, numPointsForSlope]
  have h3 : Sxx (timeWindow gShort) ≠ 0 := by
    norm_num [Sxx, timeWindow, timePoints, gShort, mean, numPointsForSlope]
  exact ⟨h1, h2, h3, C1_initial_velocity_linear gShort 0 (-2) 6 h1 h2 h3⟩

/-- C2: the fitted parameters returned by the analysis are non-negative, for
every curve_fit oracle respecting the documented bounds=(0, np.inf) contract,
every grid and every enzyme concentration. -/
theorem C2_fit_bounds (cf : CurveFit) (g : Grid) (e : ℚ) :
    0 ≤ (analyze_enzyme_kinetics cf g e).Vmax
    ∧ 0 ≤ (analyze_enzyme_kinetics cf g e).Km := by
  unfold analyze_enzyme_kinetics
  exact ⟨(cf.bounds_nonneg _ _).1, (cf.bounds_nonneg _ _).2⟩

/-- C3: whenever the two divisions are finite (enzyme concentration nonzero
and fitted Km nonzero, which covers every successful run), the derived
quantities satisfy kcat = Vmax / enzyme_concentration and
catalytic efficiency = kcat / Km. -/
theorem C3_derived_quantities (cf : CurveFit) (g : Grid) (e : ℚ) (he : e ≠ 0)
    (hKm : (analyze_enzyme_kinetics cf g e).Km ≠ 0) :
    (analyze_enzyme_kinetics cf g e).kcat
        = FVal.fin ((analyze_enzyme_kinetics cf g e).Vmax / e)
    ∧ (analyze_enzyme_kinetics cf g e).catalytic_efficiency
        = FVal.fin ((analyze_enzyme_kinetics cf g e).Vmax / e
            / (analyze_enzyme_kinetics cf g e).Km) := by
  have hKm' : (cf.run (substrateConcentrations g) (initialRates g)).2 ≠ 0 := hKm
  unfold analyze_enzyme_kinetics
  simp [FVal.div, he, hKm']

/-- C3 witness: with the constant oracle (Vmax, Km) = (100, 10) and the
default enzyme concentration 20e-12 the hypotheses hold and the derived
quantities come out as the two quotients. -/
theorem C3_witness :
    enzymeConcentrationDefault ≠ 0 ∧
    (analyze_enzyme_kinetics cfConst gMin enzymeConcentrationDefault).Km ≠ 0 ∧
    ((analyze_enzyme_kinetics cfConst gMin enzymeConcentrationDefault).kcat
        = FVal.fin ((analyze_enzyme_kinetics cfConst gMin enzymeConcentrationDefault).Vmax
            / enzymeConcentrationDefault)
      ∧ (analyze_enzyme_kinetics cfConst gMin enzymeConcentrationDefault).catalytic_efficiency
        = FVal.fin ((analyze_enzyme_kinetics cfConst gMin enzymeConcentrationDefault).Vmax
            / enzymeConcentrationDefault
            / (analyze_enzyme_kinetics cfConst gMin enzymeConcentrationDefault).Km)) := by
  have h1 : enzymeConcentrationDefault ≠ 0 := by norm_num [enzymeConcentrationDefault]
  have h2 : (analyze_enzyme_kinetics cfConst gMin enzymeConcentrationDefault).Km ≠ 0 := by
    norm_num [analyze_enzyme_kinetics, cfConst]
  exact ⟨h1, h2, C3_derived_quantities cfConst gMin enzymeConcentrationDefault h1 h2⟩

/-- C4: at a slope window whose five time points are all 1 (a single distinct
value) with the non-constant signal [1,2,3,4,5], the Rate Estimator does not
raise anything: np.polyfit falls back to the column-scaled minimum-norm
least-squares solution, whose slope is mean(signal) / 2 = 3/2, and the code
reports the numeric velocity -3/2.  No DegenerateWindowError exists anywhere
in the code. -/
theorem C4_no_degenerate_window_error :
    timeWindow gDegen = [1, 1, 1, 1, 1] ∧ initialRates gDegen = [-(3 / 2)] := by
  constructor
  · norm_num [timeWindow, timePoints, gDegen, numPointsForSlope]
  · norm_num [initialRates, reactionWidth, reactionData, gDegen, timeWindow, timePoints,
      signalWindow, signalColumn, polyfitSlope, Sxx, Sxy, mean, numPointsForSlope,
      range_one_eval]

/-- C5: with concentrations [5, 5] - two points but a single distinct value -
the analysis performs no distinctness check and still produces a complete
numeric result record; no InsufficientDataError exists anywhere in
the code. -/
theorem C5_no_insufficient_data_error :
    substrateConcentrations gTwoSame = [5, 5] ∧
    analyze_enzyme_kinetics cfConst gTwoSame enzymeConcentrationDefault
      = ⟨10, 100, FVal.fin (5 * 10 ^ 12), FVal.fin (5 * 10 ^ 11)⟩ := by
  constructor
  · norm_num [substrateConcentrations, gTwoSame]
  · norm_num [analyze_enzyme_kinetics, cfConst, enzymeConcentrationDefault, FVal.div]

/-- C6: with enzyme_concentration = 0 (which is ≤ 0) the computation does not
fail with InvalidConfigurationError - no such error exists in the code; the
float division Vmax / 0 silently produces +infinity, which flows into the
result record. -/
theorem C6_no_invalid_configuration_error :
    (analyze_enzyme_kinetics cfConst gMin 0).kcat = FVal.inf ∧
    (analyze_enzyme_kinetics cfConst gMin 0).catalytic_efficiency = FVal.inf := by
  norm_num [analyze_enzyme_kinetics, cfConst, FVal.div]

/-- C7: when the fit returns Vmax = 0 and Km = 0 (both permitted by the
bounds), kcat is the finite 0 and catalytic efficiency = kcat / Km is the
float division 0 / 0, which silently yields NaN: the code neither raises a
DivisionByZeroError nor reports +infinity explicitly. -/
theorem C7_silent_nan :
    (analyze_enzyme_kinetics cfZero gMin enzymeConcentrationDefault).Km = 0 ∧
    (analyze_enzyme_kinetics cfZero gMin enzymeConcentrationDefault).kcat = FVal.fin 0 ∧
    (analyze_enzyme_kinetics cfZero gMin enzymeConcentrationDefault).catalytic_efficiency
      = FVal.nan := by
  norm_num [analyze_enzyme_kinetics, cfZero, enzymeConcentrationDefault, FVal.div]

/-- C8 counterexample: on the 3-by-3 grid gLayout the extracted signal block
is [[4]] (column 0 excluded), not the block [[9, 4]] of all non-last columns
that the claim describes. -/
theorem C8_counterexample :
    reactionData gLayout = [[4]] ∧ reactionDataSpec gLayout = [[9, 4]] ∧
    reactionData gLayout ≠ reactionDataSpec gLayout := by
  refine ⟨?_, ?_, ?_⟩ <;> norm_num [reactionData, reactionDataSpec, gLayout]

/-- C8 amended: on a rectangular grid with C columns, concentration entry i
comes from row 0 column i+1, time entry j comes from row j+2 of the LAST
column, and signal cell (j, i) comes from row j+2 column i+1 - i.e. rows ≥ 2
and columns 1..C-2, excluding the first column as well as the last. -/
theorem C8_amended_layout (g : Grid) (C i j : ℕ)
    (hrect : ∀ r ∈ g, r.length = C)
    (hi : i + 2 < C) (hj : j + 2 < g.length) :
    (substrateConcentrations g).getD i 0 = (g.getD 0 []).getD (i + 1) 0
    ∧ (timePoints g).getD j 0 = (g.getD (j + 2) []).getD (C - 1) 0
    ∧ ((reactionData g).getD j []).getD i 0 = (g.getD (j + 2) []).getD (i + 1) 0 := by
  have hj2 : j < (g.drop 2).length := by
    rw [List.length_drop]
    omega
  have hjg : j + 2 < g.length := hj
  have hrow : (g.drop 2)[j] ∈ g := List.drop_subset 2 g (List.getElem_mem hj2)
  have hrowlen : ((g.drop 2)[j]).length = C := hrect _ hrow
  have hrowne : (g.drop 2)[j] ≠ [] := by
    apply List.ne_nil_of_length_pos
    rw [hrowlen]
    omega
  have hgetJ : (g.getD (j + 2) []) = (g.drop 2)[j] := by
    rw [List.getD_eq_getElem _ _ hjg, List.getElem_drop]
    congr 1
    omega
  refine ⟨?_, ?_, ?_⟩
  · cases g with
    | nil => simp at hj
    | cons r0 rest =>
        have hr0 : r0.length = C := hrect r0 (List.mem_cons_self r0 rest)
        show (((r0 :: rest).headD []).drop 1).dropLast.getD i 0
            = ((r0 :: rest).getD 0 []).getD (i + 1) 0
        simp only [List.headD_cons, List.getD_cons_zero]
        exact dropSlice_getD r0 i (by omega)
  · show ((g.drop 2).map (fun r => r.getLastD 0)).getD j 0
        = (g.getD (j + 2) []).getD (C - 1) 0
    rw [List.getD_eq_getElem _ _ (by simpa using hj2), List.getElem_map]
    rw [hgetJ, getLastD_eq_getD _ _ hrowne, hrowlen]
  · show (((g.drop 2).map (fun r => (r.drop 1).dropLast)).getD j []).getD i 0
        = (g.getD (j + 2) []).getD (i + 1) 0
    rw [List.getD_eq_getElem ((g.drop 2).map (fun r => (r.drop 1).dropLast)) []
      (by simpa using hj2)]
    rw [List.getElem_map, hgetJ]
    exact dropSlice_getD _ i (by rw [hrowlen]; omega)

/-- C8 amended witness: the index facts evaluated on the concrete 3-by-3 grid
gLayout at i = j = 0. -/
theorem C8_amended_witness :
    (substrateConcentrations gLayout).getD 0 0 = (gLayout.getD 0 []).getD (0 + 1) 0
    ∧ (timePoints gLayout).getD 0 0 = (gLayout.getD (0 + 2) []).getD (3 - 1) 0
    ∧ ((reactionData gLayout).getD 0 []).getD 0 0
        = (gLayout.getD (0 + 2) []).getD (0 + 1) 0 := by
  have hrect : ∀ r ∈ gLayout, r.length = 3 := by
    intro r hr
    simp only [gLayout, List.mem_cons, List.not_mem_nil, or_false] at hr
    rcases hr with h | h | h <;> subst h <;> rfl
  exact C8_amended_layout gLayout 3 0 0 hrect (by norm_num) (by norm_num [gLayout])

/-- C9 counterexample: the sample run prints mantissas with three digits after
the decimal point, e.g. the line for Km = 10 is the 4-significant-digit text
1.000e+01 and not the 3-significant-digit text 1.00e+01 the claim
prescribes. -/
theorem C9_counterexample :
    renderResults (analyze_enzyme_kinetics cfConst gMin enzymeConcentrationDefault)
      = [ "Km (µM): 1.000e+01", "Vmax (µM/s): 1.000e+02", "kcat (s^-1): 5.000e+12"
        , "Catalytic Efficiency (M^-1s^-1): 5.000e+11" ]
    ∧ sciNotation3Sig 10 = "1.00e+01"
    ∧ "Km (µM): 1.000e+01" ≠ "Km (µM): " ++ sciNotation3Sig 10 := by
  have hA : analyze_enzyme_kinetics cfConst gMin enzymeConcentrationDefault
      = ⟨10, 100, FVal.fin (5 * 10 ^ 12), FVal.fin (5 * 10 ^ 11)⟩ := by
    norm_num [analyze_enzyme_kinetics, cfConst, enzymeConcentrationDefault, FVal.div]
  refine ⟨?_, sciNotation3Sig_ten, ?_⟩
  · rw [hA]
    simp only [renderResults, fvalStr, fmtE3_ten, fmtE3_hundred, fmtE3_fiveE12,
      fmtE3_fiveE11]
    rfl
  · rw [sciNotation3Sig_ten]
    decide

/-- C9 amended: each value is rendered in scientific notation with three
digits after the decimal point, i.e. FOUR significant digits: for every
positive value whose decimal exponent the renderer brackets correctly, the
mantissa of the .3e rendering is a number in [1000, 10000) read as d.ddd. -/
theorem C9_amended_four_sig_digits (q : ℚ) (h1 : (10 : ℚ) ^ expOf q ≤ q)
    (h2 : q < (10 : ℚ) ^ (expOf q + 1)) :
    fmtE3pos q = mantissaStr (sciParts q).2 ++ "e" ++ expStr (sciParts q).1
    ∧ 1000 ≤ (sciParts q).2 ∧ (sciParts q).2 < 10000 :=
  ⟨rfl, sciParts_mantissa q h1 h2⟩

/-- C9 amended witness: at the printed value 10 the exponent bracket holds and
the mantissa is the 4-digit 1000, rendered 1.000. -/
theorem C9_amended_witness :
    ((10 : ℚ) ^ expOf (10 : ℚ) ≤ 10 ∧ (10 : ℚ) < (10 : ℚ) ^ (expOf (10 : ℚ) + 1))
    ∧ (fmtE3pos 10 = mantissaStr (sciParts 10).2 ++ "e" ++ expStr (sciParts 10).1
       ∧ 1000 ≤ (sciParts (10 : ℚ)).2 ∧ (sciParts (10 : ℚ)).2 < 10000) := by
  have h1 : (10 : ℚ) ^ expOf (10 : ℚ) ≤ 10 := by
    norm_num [expOf, expSearchUp_lt, expSearchUp_ge]
  have h2 : (10 : ℚ) < (10 : ℚ) ^ (expOf (10 : ℚ) + 1) := by
    norm_num [expOf, expSearchUp_lt, expSearchUp_ge]
  exact ⟨⟨h1, h2⟩, C9_amended_four_sig_digits 10 h1 h2⟩

/-- C10: when the grid supplies fewer than 5 time samples but the window
still has at least 2 distinct time values, the slice silently truncates to
the available samples: every column velocity is the determinate OLS slope
over ALL samples (negated), with no error and no report of the short
window. -/
theorem C10_short_window (g : Grid) (h5 : (timePoints g).length < 5)
    (hS : Sxx (timePoints g) ≠ 0) :
    initialRates g = (List.range (reactionWidth g)).map
      (fun i => -(Sxy (timePoints g) (signalColumn g i) / Sxx (timePoints g))) := by
  have h5' : (timePoints g).length ≤ 5 := Nat.le_of_lt h5
  have htw := timeWindow_of_short g h5'
  have hsw : ∀ i, signalWindow g i = signalColumn g i :=
    fun i => signalWindow_of_short g i h5'
  unfold initialRates
  apply List.map_congr_left
  intro i _
  rw [htw, hsw i]
  simp only [polyfitSlope]
  rw [if_neg hS]

/-- C10 witness: gShort has 3 time samples [0,1,2]; the rates equal the OLS
slopes over all three samples. -/
theorem C10_witness :
    (timePoints gShort).length < 5 ∧ Sxx (timePoints gShort) ≠ 0 ∧
    initialRates gShort = (List.range (reactionWidth gShort)).map
      (fun i => -(Sxy (timePoints gShort) (signalColumn gShort i)
          / Sxx (timePoints gShort))) := by
  have h1 : (timePoints gShort).length < 5 := by norm_num [timePoints, gShort]
  have h2 : Sxx (timePoints gShort) ≠ 0 := by
    norm_num [Sxx, timePoints, gShort, mean]
  exact ⟨h1, h2, C10_short_window gShort h1 h2⟩

end Q33
